import Mathlib

set_option autoImplicit false

/-!
Shallow embedding of src/createBatchLoader.ts, the debounced request-batching
cache engine, together with theorems settling the specification claims.

Modelling conventions:
- JS `Record<string, V>` objects (subscriptions, itemStates) are association
  lists with unique keys in insertion order; assignment is `upsert`, `delete`
  is `aerase`, indexing is `alookup`.
- The pending queue `Array<string | null>` is a `List (Option String)`;
  the JS `null` sentinel is `none`.
- The JS truthiness test `if (id)` rejects both `null` and the empty string,
  so it is modelled as a `none` check plus an `s = ""` check.
- Observer callbacks are opaque, so they are identified by a `Nat` tag; a
  call `callback(state)` is recorded as an `Event.notify` in an event list.
- A bulk-loader invocation is recorded as an `Event.loaderCall` carrying the
  exact identifier list passed to it.
- The debounce timer is abstracted to the Boolean `timerArmed`
  (`currentTimeout !== null`); `flush` is the body of the `setTimeout`
  callback in `scheduleLoad`, executed atomically with the loader settlement
  supplied as an `Except Unit (List T)` (ok = resolve, error = reject/throw).
- A thrown JS `TypeError` is modelled by a Boolean `true` in the last
  component of a function result; mutations performed before the throw are
  kept, exactly as in JS.
- Spreading an absent object (`{...undefined, f: v}`) leaves the other
  fields undefined; undefined flags are falsy and undefined data is absent,
  so the spread base for an absent entry is `SPREAD_DEFAULT`.
- Item truthiness: `reportFinished` tests `if (!item)` on the result of
  `items.find`. For the record-typed items this library is written for (and
  that its tests use) a found item is always truthy, so the test is modelled
  as "the find returned nothing".
-/

namespace BatchLoader

/-- Per-identifier load state, mirroring the ItemState interface of
createBatchLoader.ts; `data` is `none` when the JS field is null or absent. -/
structure ItemState (T : Type) where
  isLoading : Bool
  isQueued : Bool
  hasErrors : Bool
  data : Option T
  deriving Repr, DecidableEq

/-- The NEW_ITEM_STATE constant of createBatchLoader.ts. -/
def NEW_ITEM_STATE {T : Type} : ItemState T :=
  ⟨false, true, false, none⟩

/-- Result of spreading an absent itemStates entry: every flag undefined
(falsy) and data undefined (absent). -/
def SPREAD_DEFAULT {T : Type} : ItemState T :=
  ⟨false, false, false, none⟩

/-- Observable effects of the engine: a callback invocation with the state it
receives, or a bulk-loader invocation with the identifier list it receives. -/
inductive Event (T : Type) where
  | notify (cb : Nat) (st : ItemState T)
  | loaderCall (ids : List String)
  deriving Repr, DecidableEq

/-- The closure-held mutable state of one createBatchLoader instance. -/
structure Engine (T : Type) where
  currentQueue : List (Option String)
  subscriptions : List (String × List Nat)
  itemStates : List (String × ItemState T)
  timerArmed : Bool
  keepCache : Bool
  loadWithoutItems : Bool
  deriving Repr, DecidableEq

/-- JS object indexing `record[key]`: the value, or none when absent. -/
def alookup {α : Type} : List (String × α) → String → Option α
  | [], _ => none
  | (k, v) :: rest, key => if k = key then some v else alookup rest key

/-- JS object assignment `record[key] = v`: replace in place, else append. -/
def upsert {α : Type} : List (String × α) → String → α → List (String × α)
  | [], key, v => [(key, v)]
  | (k, w) :: rest, key, v =>
    if k = key then (key, v) :: rest else (k, w) :: upsert rest key v

/-- JS `delete record[key]`. -/
def aerase {α : Type} (l : List (String × α)) (key : String) : List (String × α) :=
  l.filter (fun p => p.1 != key)

/-- The reportQueuing function: writes the queued flag, then calls
`callbacks.forEach` without a guard, so an identifier with no registry entry
makes it throw a TypeError after the state write (Boolean result true). -/
def reportQueuing {T : Type} (e : Engine T) (id : Option String) :
    Engine T × List (Event T) × Bool :=
  match id with
  | none => (e, [], false)
  | some s =>
    if s = "" then (e, [], false)
    else
      let callbacks := alookup e.subscriptions s
      let newState :=
        { (alookup e.itemStates s).getD SPREAD_DEFAULT with isQueued := true }
      let e1 : Engine T := { e with itemStates := upsert e.itemStates s newState }
      match callbacks with
      | none => (e1, [], true)
      | some cbs => (e1, cbs.map (fun c => Event.notify c newState), false)

/-- The reportLoading function: for each truthy queued identifier that still
has a registry entry, set loading flags and notify its observers. -/
def reportLoading {T : Type} : Engine T → List (Option String) → Engine T × List (Event T)
  | e, [] => (e, [])
  | e, none :: rest => reportLoading e rest
  | e, some s :: rest =>
    if s = "" then reportLoading e rest
    else
      match alookup e.subscriptions s with
      | none => reportLoading e rest
      | some cbs =>
        let newState :=
          { (alookup e.itemStates s).getD SPREAD_DEFAULT with
            hasErrors := false, isQueued := false, isLoading := true }
        let e1 : Engine T := { e with itemStates := upsert e.itemStates s newState }
        let r := reportLoading e1 rest
        (r.1, cbs.map (fun c => Event.notify c newState) ++ r.2)

/-- The reportFailed function: for each truthy identifier with a registry
entry, set the failed flags (data untouched) and notify its observers. -/
def reportFailed {T : Type} : Engine T → List (Option String) → Engine T × List (Event T)
  | e, [] => (e, [])
  | e, none :: rest => reportFailed e rest
  | e, some s :: rest =>
    if s = "" then reportFailed e rest
    else
      match alookup e.subscriptions s with
      | none => reportFailed e rest
      | some cbs =>
        let newState :=
          { (alookup e.itemStates s).getD SPREAD_DEFAULT with
            hasErrors := true, isLoading := false }
        let e1 : Engine T := { e with itemStates := upsert e.itemStates s newState }
        let r := reportFailed e1 rest
        (r.1, cbs.map (fun c => Event.notify c newState) ++ r.2)

/-- The success pass of reportFinished: mark each matched identifier
succeeded with its item, collect unmatched truthy identifiers in order. -/
def finishPass {T : Type} (getId : T → String) (items : List T) :
    Engine T → List (Option String) → Engine T × List (Event T) × List String
  | e, [] => (e, [], [])
  | e, none :: rest => finishPass getId items e rest
  | e, some s :: rest =>
    if s = "" then finishPass getId items e rest
    else
      match items.find? (fun it => decide (getId it = s)) with
      | none =>
        let r := finishPass getId items e rest
        (r.1, r.2.1, s :: r.2.2)
      | some item =>
        match alookup e.subscriptions s with
        | none => finishPass getId items e rest
        | some cbs =>
          let newState :=
            { (alookup e.itemStates s).getD SPREAD_DEFAULT with
              hasErrors := false, isLoading := false, data := some item }
          let e1 : Engine T := { e with itemStates := upsert e.itemStates s newState }
          let r := finishPass getId items e1 rest
          (r.1, cbs.map (fun c => Event.notify c newState) ++ r.2.1, r.2.2)

/-- The reportFinished function: the success pass, then one reportFailed pass
over all identifiers missing from the loader result. -/
def reportFinished {T : Type} (getId : T → String) (e : Engine T)
    (ids : List (Option String)) (items : List T) : Engine T × List (Event T) :=
  let r := finishPass getId items e ids
  let f := reportFailed r.1 (r.2.2.map some)
  (f.1, r.2.1 ++ f.2)

/-- The body of the setTimeout callback in scheduleLoad: snapshot and clear
the queue, report loading, invoke the loader on the isDefined-filtered
identifiers, reconcile its settlement, clear the timer marker. -/
def flush {T : Type} (getId : T → String) (e : Engine T)
    (result : Except Unit (List T)) : Engine T × List (Event T) :=
  let itemsToFetch := e.currentQueue
  let e0 : Engine T := { e with currentQueue := [] }
  let l := reportLoading e0 itemsToFetch
  let callEvent : Event T := Event.loaderCall (itemsToFetch.filterMap (fun x => x))
  match result with
  | Except.ok items =>
    let f := reportFinished getId l.1 itemsToFetch items
    ({ f.1 with timerArmed := false }, l.2 ++ [callEvent] ++ f.2)
  | Except.error _ =>
    let f := reportFailed l.1 itemsToFetch
    ({ f.1 with timerArmed := false }, l.2 ++ [callEvent] ++ f.2)

/-- The addToQueue function: push, report queuing, and (only when no
TypeError was thrown) reach scheduleLoad, which arms the debounce timer. -/
def addToQueue {T : Type} (e : Engine T) (id : Option String) :
    Engine T × List (Event T) × Bool :=
  let e1 : Engine T := { e with currentQueue := e.currentQueue ++ [id] }
  let r := reportQueuing e1 id
  if r.2.2 then (r.1, r.2.1, true)
  else ({ r.1 with timerArmed := true }, r.2.1, false)

/-- The refresh operation: unconditionally addToQueue. -/
def refresh {T : Type} (e : Engine T) (id : String) :
    Engine T × List (Event T) × Bool :=
  addToQueue e (some id)

/-- The getItem operation: `itemStates[id] || NEW_ITEM_STATE` (a stored state
object is always truthy). -/
def getItem {T : Type} (e : Engine T) (id : String) : ItemState T :=
  (alookup e.itemStates id).getD NEW_ITEM_STATE

/-- The subscribe operation: on a missing registry entry, create it, store
the default state and enqueue; then append the callback. The callback is
appended after addToQueue has already run. -/
def subscribe {T : Type} (e : Engine T) (id : String) (cb : Nat) :
    Engine T × List (Event T) × Bool :=
  match alookup e.subscriptions id with
  | none =>
    let e1 : Engine T :=
      { e with
        subscriptions := upsert e.subscriptions id []
        itemStates := upsert e.itemStates id NEW_ITEM_STATE }
    let r := addToQueue e1 (some id)
    if r.2.2 then (r.1, r.2.1, true)
    else
      let e2 := r.1
      let e3 : Engine T :=
        { e2 with
          subscriptions :=
            upsert e2.subscriptions id ((alookup e2.subscriptions id).getD [] ++ [cb]) }
      (e3, r.2.1, false)
  | some cbs =>
    ({ e with subscriptions := upsert e.subscriptions id (cbs ++ [cb]) }, [], false)

/-- The disposer returned by subscribe: filter the callback out of
`subscriptions[id]` (a TypeError if that entry was deleted), and evict both
maps when the list became empty and keepCache is off. -/
def unsubscribe {T : Type} (e : Engine T) (id : String) (cb : Nat) :
    Engine T × Bool :=
  match alookup e.subscriptions id with
  | none => (e, true)
  | some cbs =>
    let remaining := cbs.filter (fun c => c != cb)
    let e1 : Engine T := { e with subscriptions := upsert e.subscriptions id remaining }
    if remaining.isEmpty && !e.keepCache then
      ({ e1 with
          subscriptions := aerase e1.subscriptions id
          itemStates := aerase e1.itemStates id }, false)
    else (e1, false)

/-- The forEach of refreshAll over the registry keys; a thrown TypeError
would abort the iteration (it cannot actually arise on registry keys). -/
def addAll {T : Type} : Engine T → List String → Engine T × List (Event T)
  | e, [] => (e, [])
  | e, k :: rest =>
    let r := addToQueue e (some k)
    if r.2.2 then (r.1, r.2.1)
    else
      let r2 := addAll r.1 rest
      (r2.1, r.2.1 ++ r2.2)

/-- The refreshAll operation: enqueue every registry key, then the sentinel
when loadWithoutItems is on. -/
def refreshAll {T : Type} (e : Engine T) : Engine T × List (Event T) :=
  let r := addAll e (e.subscriptions.map Prod.fst)
  if e.loadWithoutItems then
    let r2 := addToQueue r.1 none
    (r2.1, r.2 ++ r2.2.1)
  else r

/-- The engine state right after the variable initialisations in
createBatchLoader, before the loadWithoutItems bootstrap. -/
def emptyEngine {T : Type} (keepCache loadWithoutItems : Bool) : Engine T :=
  ⟨[], [], [], false, keepCache, loadWithoutItems⟩

/-- The engine returned by createBatchLoader: the bootstrap enqueues the
sentinel when loadWithoutItems is set. -/
def initEngine {T : Type} (keepCache loadWithoutItems : Bool) : Engine T :=
  if loadWithoutItems then
    (addToQueue (emptyEngine keepCache loadWithoutItems) none).1
  else emptyEngine keepCache loadWithoutItems

/-- An external call arriving during one debounce window; each call is a
separate event-loop turn, so a TypeError thrown by one call does not stop
the later calls from happening. -/
inductive Op where
  | refresh (id : String)
  | subscribe (id : String) (cb : Nat)
  | refreshAll
  deriving Repr, DecidableEq

/-- Run one external call, keeping its engine result and emitted events. -/
def runOp {T : Type} (e : Engine T) : Op → Engine T × List (Event T)
  | Op.refresh id => ((refresh e id).1, (refresh e id).2.1)
  | Op.subscribe id cb => ((subscribe e id cb).1, (subscribe e id cb).2.1)
  | Op.refreshAll => refreshAll e

/-- Run a burst of external calls in order. -/
def runOps {T : Type} : Engine T → List Op → Engine T × List (Event T)
  | e, [] => (e, [])
  | e, op :: rest =>
    let r := runOp e op
    let r2 := runOps r.1 rest
    (r2.1, r.2 ++ r2.2)

/-- The queue entries an external call pushes, given the engine it runs in:
refresh always pushes its identifier, subscribe pushes only when the
identifier has no registry entry, refreshAll pushes every registry key plus
the sentinel when loadWithoutItems is on. -/
def opEnqueues {T : Type} (e : Engine T) : Op → List (Option String)
  | Op.refresh id => [some id]
  | Op.subscribe id _ =>
    match alookup e.subscriptions id with
    | none => [some id]
    | some _ => []
  | Op.refreshAll =>
    e.subscriptions.map (fun p => some p.1)
      ++ (if e.loadWithoutItems then [none] else [])

/-- The queue entries pushed by a burst of external calls, in order. -/
def opsEnqueues {T : Type} : Engine T → List Op → List (Option String)
  | _, [] => []
  | e, op :: rest => opEnqueues e op ++ opsEnqueues (runOp e op).1 rest

/-- The arguments of the bulk-loader invocations recorded in an event list. -/
def loaderCalls {T : Type} (evs : List (Event T)) : List (List String) :=
  evs.filterMap (fun ev =>
    match ev with
    | Event.loaderCall ids => some ids
    | Event.notify _ _ => none)

/-- The data field an identifier's stored state presents: absent both for a
missing entry and for an entry holding no data. -/
def dataOf {T : Type} (l : List (String × ItemState T)) (id : String) : Option T :=
  ((alookup l id).getD SPREAD_DEFAULT).data

/-! Association-list lemmas for the JS Record model. -/

theorem alookup_upsert_self {α : Type} (l : List (String × α)) (k : String) (v : α) :
    alookup (upsert l k v) k = some v := by
  induction l with
  | nil => simp [upsert, alookup]
  | cons p rest ih =>
    obtain ⟨a, b⟩ := p
    by_cases h : a = k
    · simp [upsert, h, alookup]
    · simp [upsert, h, alookup, ih]

theorem alookup_upsert_ne {α : Type} (l : List (String × α)) (k k' : String) (v : α)
    (h : k' ≠ k) : alookup (upsert l k v) k' = alookup l k' := by
  induction l with
  | nil => simp [upsert, alookup, Ne.symm h]
  | cons p rest ih =>
    obtain ⟨a, b⟩ := p
    by_cases ha : a = k
    · subst ha
      simp [upsert, alookup, Ne.symm h]
    · simp [upsert, ha, alookup, ih]

theorem alookup_upsert {α : Type} (l : List (String × α)) (k k' : String) (v : α) :
    alookup (upsert l k v) k' = if k = k' then some v else alookup l k' := by
  by_cases h : k = k'
  · subst h; simp [alookup_upsert_self]
  · simp [h, alookup_upsert_ne l k k' v (Ne.symm h)]

theorem alookup_aerase_self {α : Type} (l : List (String × α)) (k : String) :
    alookup (aerase l k) k = none := by
  induction l with
  | nil => simp [aerase, alookup]
  | cons p rest ih =>
    obtain ⟨a, b⟩ := p
    by_cases h : a = k
    · simpa [aerase, h] using ih
    · simpa [aerase, alookup, h] using ih

theorem alookup_aerase_ne {α : Type} (l : List (String × α)) (k k' : String)
    (h : k' ≠ k) : alookup (aerase l k) k' = alookup l k' := by
  induction l with
  | nil => simp [aerase, alookup]
  | cons p rest ih =>
    obtain ⟨a, b⟩ := p
    by_cases ha : a = k
    · subst ha
      simpa [aerase, List.filter_cons, alookup, Ne.symm h] using ih
    · simp only [aerase] at ih
      simp [aerase, List.filter_cons, alookup, ha, ih]

theorem alookup_isSome_of_mem_keys {α : Type} (l : List (String × α)) (k : String)
    (h : k ∈ l.map Prod.fst) : (alookup l k).isSome = true := by
  induction l with
  | nil => simp at h
  | cons p rest ih =>
    obtain ⟨a, b⟩ := p
    by_cases ha : a = k
    · simp [alookup, ha]
    · simp only [List.map_cons, List.mem_cons] at h
      rcases h with h | h

      · exact absurd h.symm ha
      · simp [alookup, ha, ih h]

/-! Claim theorems. -/

/-- Claim C8: getItem on an identifier with no stored state (never seen, or
evicted) returns the default state with isLoading false, isQueued true,
hasErrors false and absent data; getItem is a pure function of the engine
state (its type returns only the state, so it can neither mutate the engine
nor fail). -/
theorem getItem_unknown_default {T : Type} (e : Engine T) (id : String)
    (h : alookup e.itemStates id = none) :
    getItem e id = { isLoading := false, isQueued := true, hasErrors := false, data := none } := by
  simp [getItem, h, NEW_ITEM_STATE]

/-- Witness for C8 at a concrete engine and identifier. -/
theorem getItem_unknown_default_witness :
    getItem ((initEngine false false) : Engine Nat) "x" =
      { isLoading := false, isQueued := true, hasErrors := false, data := none } :=
  getItem_unknown_default ((initEngine false false) : Engine Nat) "x" (by decide)

/-- Claim C6: removing the last observer evicts the registry entry and the
stored state together when keepCache is false (getItem falls back to the
default state), and preserves the stored state when keepCache is true. -/
theorem unsubscribe_last_observer_cache {T : Type} (e : Engine T) (id : String)
    (cb : Nat) (cbs : List Nat)
    (hsub : alookup e.subscriptions id = some cbs)
    (hlast : cbs.filter (fun c => c != cb) = []) :
    alookup ((unsubscribe e id cb).1.subscriptions) id = (if e.keepCache then some [] else none)
    ∧ alookup ((unsubscribe e id cb).1.itemStates) id =
        (if e.keepCache then alookup e.itemStates id else none)
    ∧ getItem (unsubscribe e id cb).1 id =
        (if e.keepCache then getItem e id else NEW_ITEM_STATE) := by
  cases hk : e.keepCache with
  | false =>
    simp [unsubscribe, hsub, hlast, hk, getItem, alookup_aerase_self]
  | true =>
    simp [unsubscribe, hsub, hlast, hk, getItem, alookup_upsert_self]

/-- Witness for C6: a single-observer engine with keepCache off gets both
entries evicted together. -/
theorem unsubscribe_last_observer_cache_witness :
    alookup ((unsubscribe
        (⟨[], [("a", [5])], [("a", NEW_ITEM_STATE)], false, false, false⟩ : Engine Nat)
        "a" 5).1.subscriptions) "a" = none
    ∧ alookup ((unsubscribe
        (⟨[], [("a", [5])], [("a", NEW_ITEM_STATE)], false, false, false⟩ : Engine Nat)
        "a" 5).1.itemStates) "a" = none := by
  have h := unsubscribe_last_observer_cache
    (⟨[], [("a", [5])], [("a", NEW_ITEM_STATE)], false, false, false⟩ : Engine Nat)
    "a" 5 [5] (by decide) (by decide)
  exact ⟨by simpa using h.1, by simpa using h.2.1⟩

/-- Claim C10: the disposer is not idempotent. If its first call removed the
last observer with keepCache off (evicting the registry entry), the second
call hits the deleted entry and throws a TypeError instead of being a no-op. -/
theorem disposer_second_call_throws {T : Type} (e : Engine T) (id : String)
    (cb : Nat) (cbs : List Nat)
    (hsub : alookup e.subscriptions id = some cbs)
    (hlast : cbs.filter (fun c => c != cb) = [])
    (hkc : e.keepCache = false) :
    (unsubscribe e id cb).2 = false
    ∧ (unsubscribe (unsubscribe e id cb).1 id cb).2 = true := by
  constructor
  · simp [unsubscribe, hsub, hlast, hkc]
  · simp [unsubscribe, hsub, hlast, hkc, alookup_aerase_self]

/-- Witness for C10 at a concrete single-observer engine. -/
theorem disposer_second_call_throws_witness :
    (unsubscribe (⟨[], [("a", [5])], [("a", NEW_ITEM_STATE)], false, false, false⟩ : Engine Nat)
        "a" 5).2 = false
    ∧ (unsubscribe (unsubscribe
        (⟨[], [("a", [5])], [("a", NEW_ITEM_STATE)], false, false, false⟩ : Engine Nat)
        "a" 5).1 "a" 5).2 = true :=
  disposer_second_call_throws _ "a" 5 [5] (by decide) (by decide) (by decide)

/-- Claim C1 (code bug evidence): refresh on a nonempty identifier with no
registry entry is not a silent no-op. The mark-queued step writes a partial
item state and then dereferences the missing callback list, so a TypeError
escapes to the caller of refresh; no observer is notified and the identifier
still lands in the queue. -/
theorem refresh_unregistered_throws {T : Type} (e : Engine T) (id : String)
    (hsub : alookup e.subscriptions id = none) (hid : id ≠ "")
    (hst : alookup e.itemStates id = none) :
    (refresh e id).2.2 = true
    ∧ alookup ((refresh e id).1.itemStates) id =
        some { isLoading := false, isQueued := true, hasErrors := false, data := none }
    ∧ (refresh e id).1.currentQueue = e.currentQueue ++ [some id]
    ∧ (refresh e id).2.1 = [] := by
  simp [refresh, addToQueue, reportQueuing, hsub, hst, hid, alookup_upsert_self,
    SPREAD_DEFAULT]

/-- Witness for C1: a fresh engine with no subscriptions, refresh of "x". -/
theorem refresh_unregistered_throws_witness :
    (refresh ((initEngine false false) : Engine Nat) "x").2.2 = true
    ∧ alookup ((refresh ((initEngine false false) : Engine Nat) "x").1.itemStates) "x" =
        some { isLoading := false, isQueued := true, hasErrors := false, data := none }
    ∧ (refresh ((initEngine false false) : Engine Nat) "x").1.currentQueue = [some "x"]
    ∧ (refresh ((initEngine false false) : Engine Nat) "x").2.1 = [] := by
  have h := refresh_unregistered_throws ((initEngine false false) : Engine Nat) "x"
    (by decide) (by decide) (by decide)
  exact ⟨h.1, h.2.1, by simpa using h.2.2.1, h.2.2.2⟩

/-- Counterexample to claim C7: with keepCache on, an empty registry entry
survives the last unsubscribe, so a later subscribe call on an identifier
with no observers neither resets the state to the default nor enqueues the
identifier again; it only appends the callback. -/
theorem subscribe_keepCache_empty_entry_cex :
    (let e1 := (subscribe ((initEngine true false) : Engine String) "a" 0).1
     let e2 := (flush (fun s => s) e1 (Except.ok ["a"])).1
     let e3 := (unsubscribe e2 "a" 0).1
     alookup e3.subscriptions "a" = some []
     ∧ (subscribe e3 "a" 1).1.currentQueue = []
     ∧ getItem (subscribe e3 "a" 1).1 "a" =
         { isLoading := false, isQueued := false, hasErrors := false, data := some "a" }
     ∧ (subscribe e3 "a" 1).2.1 = []) := by
  decide

/-- Claim C7 as amended: subscribe initialises the default state and
enqueues the identifier exactly when the identifier has no registry entry;
when an entry exists (even an empty one kept by keepCache), the call only
appends the callback, leaving the queue and the stored states untouched. -/
theorem subscribe_registry_entry_behavior {T : Type} (e : Engine T) (id : String) (cb : Nat) :
    match alookup e.subscriptions id with
    | none =>
        (subscribe e id cb).1.currentQueue = e.currentQueue ++ [some id]
        ∧ alookup ((subscribe e id cb).1.itemStates) id = some NEW_ITEM_STATE
        ∧ alookup ((subscribe e id cb).1.subscriptions) id = some [cb]
        ∧ (subscribe e id cb).2.2 = false
    | some cbs =>
        (subscribe e id cb).1.currentQueue = e.currentQueue
        ∧ (subscribe e id cb).1.itemStates = e.itemStates
        ∧ alookup ((subscribe e id cb).1.subscriptions) id = some (cbs ++ [cb])
        ∧ (subscribe e id cb).2.2 = false := by
  cases h : alookup e.subscriptions id with
  | none =>
    by_cases hid : id = ""
    · subst hid
      simp [subscribe, h, addToQueue, reportQueuing, alookup_upsert_self,
        NEW_ITEM_STATE, SPREAD_DEFAULT]
    · simp [subscribe, h, addToQueue, reportQueuing, hid, alookup_upsert_self,
        NEW_ITEM_STATE, SPREAD_DEFAULT]
  | some cbs =>
    simp [subscribe, h, alookup_upsert_self]

/-- Counterexample to claim C2: the subscribe call appends the callback only
after addToQueue has already fired the mark-queued notifications, so in the
load cycle triggered by its own subscribe the callback receives zero
notifications with isQueued true, not exactly one. The full cycle trace is
loading then terminal only. -/
theorem subscribe_cycle_missing_queued_cex :
    (let s := subscribe ((initEngine false false) : Engine String) "a" 0
     s.2.1 = []
     ∧ (flush (fun x => x) s.1 (Except.ok ["a"])).2 =
         [Event.notify 0 { isLoading := true, isQueued := false, hasErrors := false, data := none },
          Event.loaderCall ["a"],
          Event.notify 0 { isLoading := false, isQueued := false, hasErrors := false, data := some "a" }]
     ∧ ((flush (fun x => x) s.1 (Except.ok ["a"])).2.countP
          (fun ev => match ev with
            | Event.notify _ st => st.isQueued
            | Event.loaderCall _ => false)) = 0) := by
  decide

/-- Claim C2 as amended: cb is never invoked synchronously during subscribe.
For a nonempty identifier subscribed on any engine with no registry entry
for it and an empty pending queue: in the load cycle triggered by that
subscribe call, cb receives no queued notification (the callback is appended
only after the mark-queued fan-out has run), then exactly one loading
notification, then exactly one terminal notification (succeeded with the
first matched item's data, or failed with hasErrors true), in that order;
the engine the cycle leaves behind has observer list exactly [cb], an empty
queue and the terminal state stored. From any such single-subscriber state,
a later cycle started by one refresh delivers exactly one queued
notification at the refresh, then exactly one loading notification, then
exactly one terminal notification, in that order, whether the loader
resolves (with or without a matching item) or rejects. A subscriber to the
empty-string identifier receives no notifications at all: the reporters'
truthiness guard skips falsy identifiers, so its cycle emits only the
bulk-loader call. -/
theorem subscribe_cycle_notifications {T : Type} (getId : T → String)
    (e e' : Engine T) (id : String) (cb : Nat) (items : List T) (st : ItemState T)
    (res2 : Except Unit (List T))
    (hid : id ≠ "")
    (hsub : alookup e.subscriptions id = none)
    (hsubE : alookup e.subscriptions "" = none)
    (hq : e.currentQueue = [])
    (hsub2 : alookup e'.subscriptions id = some [cb])
    (hst2 : alookup e'.itemStates id = some st)
    (hq2 : e'.currentQueue = []) :
    (subscribe e id cb).2.1 = []
    ∧ (subscribe e id cb).2.2 = false
    ∧ (flush getId (subscribe e id cb).1 (Except.ok items)).2 =
        [Event.notify cb { isLoading := true, isQueued := false, hasErrors := false, data := none },
         Event.loaderCall [id]] ++
        (match items.find? (fun it => decide (getId it = id)) with
         | some it =>
             [Event.notify cb { isLoading := false, isQueued := false, hasErrors := false, data := some it }]
         | none =>
             [Event.notify cb { isLoading := false, isQueued := false, hasErrors := true, data := none }])
    ∧ alookup ((flush getId (subscribe e id cb).1 (Except.ok items)).1.subscriptions) id =
        some [cb]
    ∧ (flush getId (subscribe e id cb).1 (Except.ok items)).1.currentQueue = []
    ∧ alookup ((flush getId (subscribe e id cb).1 (Except.ok items)).1.itemStates) id =
        some (match items.find? (fun it => decide (getId it = id)) with
          | some it => { isLoading := false, isQueued := false, hasErrors := false, data := some it }
          | none => { isLoading := false, isQueued := false, hasErrors := true, data := none })
    ∧ (refresh e' id).2.1 = [Event.notify cb { st with isQueued := true }]
    ∧ (refresh e' id).2.2 = false
    ∧ (flush getId (refresh e' id).1 res2).2 =
        [Event.notify cb { isLoading := true, isQueued := false, hasErrors := false, data := st.data },
         Event.loaderCall [id]] ++
        (match res2 with
         | Except.error _ =>
             [Event.notify cb { isLoading := false, isQueued := false, hasErrors := true, data := st.data }]
         | Except.ok items2 =>
           match items2.find? (fun it => decide (getId it = id)) with
           | some it2 =>
               [Event.notify cb { isLoading := false, isQueued := false, hasErrors := false, data := some it2 }]
           | none =>
               [Event.notify cb { isLoading := false, isQueued := false, hasErrors := true, data := st.data }])
    ∧ (subscribe e "" cb).2.1 = []
    ∧ (flush getId (subscribe e "" cb).1 (Except.ok items)).2 = [Event.loaderCall [""]] := by
  refine ⟨?_, ?_, ?_, ?_, ?_, ?_, ?_, ?_, ?_, ?_, ?_⟩
  · simp [subscribe, addToQueue, reportQueuing, hsub, hid, alookup_upsert]
  · simp [subscribe, addToQueue, reportQueuing, hsub, hid, alookup_upsert]
  · cases hfind : items.find? (fun it => decide (getId it = id)) with
    | none =>
      simp [subscribe, addToQueue, reportQueuing, flush, reportLoading, reportFinished,
        finishPass, reportFailed, hsub, hq, hid, hfind, alookup_upsert,
        NEW_ITEM_STATE, SPREAD_DEFAULT]
    | some it =>
      simp [subscribe, addToQueue, reportQueuing, flush, reportLoading, reportFinished,
        finishPass, reportFailed, hsub, hq, hid, hfind, alookup_upsert,
        NEW_ITEM_STATE, SPREAD_DEFAULT]
  · cases hfind : items.find? (fun it => decide (getId it = id)) with
    | none =>
      simp [subscribe, addToQueue, reportQueuing, flush, reportLoading, reportFinished,
        finishPass, reportFailed, hsub, hq, hid, hfind, alookup_upsert,
        NEW_ITEM_STATE, SPREAD_DEFAULT]
    | some it =>
      simp [subscribe, addToQueue, reportQueuing, flush, reportLoading, reportFinished,
        finishPass, reportFailed, hsub, hq, hid, hfind, alookup_upsert,
        NEW_ITEM_STATE, SPREAD_DEFAULT]
  · cases hfind : items.find? (fun it => decide (getId it = id)) with
    | none =>
      simp [subscribe, addToQueue, reportQueuing, flush, reportLoading, reportFinished,
        finishPass, reportFailed, hsub, hq, hid, hfind, alookup_upsert,
        NEW_ITEM_STATE, SPREAD_DEFAULT]
    | some it =>
      simp [subscribe, addToQueue, reportQueuing, flush, reportLoading, reportFinished,
        finishPass, reportFailed, hsub, hq, hid, hfind, alookup_upsert,
        NEW_ITEM_STATE, SPREAD_DEFAULT]
  · cases hfind : items.find? (fun it => decide (getId it = id)) with
    | none =>
      simp [subscribe, addToQueue, reportQueuing, flush, reportLoading, reportFinished,
        finishPass, reportFailed, hsub, hq, hid, hfind, alookup_upsert,
        NEW_ITEM_STATE, SPREAD_DEFAULT]
    | some it =>
      simp [subscribe, addToQueue, reportQueuing, flush, reportLoading, reportFinished,
        finishPass, reportFailed, hsub, hq, hid, hfind, alookup_upsert,
        NEW_ITEM_STATE, SPREAD_DEFAULT]
  · simp [refresh, addToQueue, reportQueuing, hsub2, hst2, hid, alookup_upsert]
  · simp [refresh, addToQueue, reportQueuing, hsub2, hst2, hid, alookup_upsert]
  · cases res2 with
    | error err =>
      simp [refresh, addToQueue, reportQueuing, flush, reportLoading, reportFailed,
        hsub2, hst2, hq2, hid, alookup_upsert, SPREAD_DEFAULT]
    | ok items2 =>
      cases hfind2 : items2.find? (fun it => decide (getId it = id)) with
      | none =>
        simp [refresh, addToQueue, reportQueuing, flush, reportLoading, reportFinished,
          finishPass, reportFailed, hsub2, hst2, hq2, hid, hfind2, alookup_upsert,
          SPREAD_DEFAULT]
      | some it2 =>
        simp [refresh, addToQueue, reportQueuing, flush, reportLoading, reportFinished,
          finishPass, reportFailed, hsub2, hst2, hq2, hid, hfind2, alookup_upsert,
          SPREAD_DEFAULT]
  · simp [subscribe, addToQueue, reportQueuing, hsubE]
  · simp [subscribe, addToQueue, reportQueuing, flush, reportLoading, reportFinished,
      finishPass, reportFailed, hsubE, hq, alookup_upsert]

/-- Witness for C2 as amended: a concrete first cycle on a fresh engine, a
concrete refresh-started second cycle with a rejecting loader from the
single-subscriber state that first cycle produced, and the notification-free
cycle of an empty-string subscriber. -/
theorem subscribe_cycle_notifications_witness :
    (flush (fun x => x) (subscribe ((initEngine false false) : Engine String) "a" 0).1
        (Except.ok ["a"])).2 =
      [Event.notify 0 { isLoading := true, isQueued := false, hasErrors := false, data := none },
       Event.loaderCall ["a"],
       Event.notify 0 { isLoading := false, isQueued := false, hasErrors := false, data := some "a" }]
    ∧ (refresh (⟨[], [("a", [0])], [("a", ⟨false, false, false, some "a"⟩)], false, false, false⟩ : Engine String) "a").2.1 =
        [Event.notify 0 { isLoading := false, isQueued := true, hasErrors := false, data := some "a" }]
    ∧ (flush (fun x => x) (refresh (⟨[], [("a", [0])], [("a", ⟨false, false, false, some "a"⟩)], false, false, false⟩ : Engine String) "a").1 (Except.error ())).2 =
        [Event.notify 0 { isLoading := true, isQueued := false, hasErrors := false, data := some "a" },
         Event.loaderCall ["a"],
         Event.notify 0 { isLoading := false, isQueued := false, hasErrors := true, data := some "a" }]
    ∧ (flush (fun x => x) (subscribe ((initEngine false false) : Engine String) "" 0).1
        (Except.ok ["a"])).2 = [Event.loaderCall [""]] := by
  have h := subscribe_cycle_notifications (fun x => x)
    ((initEngine false false) : Engine String)
    (⟨[], [("a", [0])], [("a", ⟨false, false, false, some "a"⟩)], false, false, false⟩ : Engine String)
    "a" 0 ["a"] ⟨false, false, false, some "a"⟩ (Except.error ())
    (by decide) (by decide) (by decide) (by decide) (by decide) (by decide) (by decide)
  exact ⟨h.2.2.1.trans (by decide),
    h.2.2.2.2.2.2.1.trans (by decide),
    h.2.2.2.2.2.2.2.2.1.trans (by decide),
    h.2.2.2.2.2.2.2.2.2.2⟩

/-! Frame lemmas: the reporting steps mutate only itemStates. -/

theorem reportQueuing_frame {T : Type} (e : Engine T) (x : Option String) :
    (reportQueuing e x).1.subscriptions = e.subscriptions
    ∧ (reportQueuing e x).1.currentQueue = e.currentQueue
    ∧ (reportQueuing e x).1.timerArmed = e.timerArmed := by
  cases x with
  | none => exact ⟨rfl, rfl, rfl⟩
  | some s =>
    by_cases hs : s = ""
    · simp [reportQueuing, hs]
    · cases hsub : alookup e.subscriptions s <;> simp [reportQueuing, hs, hsub]

theorem reportLoading_frame {T : Type} (q : List (Option String)) :
    ∀ e : Engine T,
      (reportLoading e q).1.subscriptions = e.subscriptions
      ∧ (reportLoading e q).1.currentQueue = e.currentQueue
      ∧ (reportLoading e q).1.timerArmed = e.timerArmed := by
  induction q with
  | nil => intro e; exact ⟨rfl, rfl, rfl⟩
  | cons x rest ih =>
    intro e
    cases x with
    | none => exact ih e
    | some s =>
      by_cases hs : s = ""
      · simpa [reportLoading, hs] using ih e
      · cases hsub : alookup e.subscriptions s with
        | none => simpa [reportLoading, hs, hsub] using ih e
        | some cbs => simpa [reportLoading, hs, hsub] using ih _

theorem reportFailed_frame {T : Type} (q : List (Option String)) :
    ∀ e : Engine T,
      (reportFailed e q).1.subscriptions = e.subscriptions
      ∧ (reportFailed e q).1.currentQueue = e.currentQueue
      ∧ (reportFailed e q).1.timerArmed = e.timerArmed := by
  induction q with
  | nil => intro e; exact ⟨rfl, rfl, rfl⟩
  | cons x rest ih =>
    intro e
    cases x with
    | none => exact ih e
    | some s =>
      by_cases hs : s = ""
      · simpa [reportFailed, hs] using ih e
      · cases hsub : alookup e.subscriptions s with
        | none => simpa [reportFailed, hs, hsub] using ih e
        | some cbs => simpa [reportFailed, hs, hsub] using ih _

theorem finishPass_frame {T : Type} (getId : T → String) (items : List T)
    (q : List (Option String)) :
    ∀ e : Engine T,
      (finishPass getId items e q).1.subscriptions = e.subscriptions
      ∧ (finishPass getId items e q).1.currentQueue = e.currentQueue
      ∧ (finishPass getId items e q).1.timerArmed = e.timerArmed := by
  induction q with
  | nil => intro e; exact ⟨rfl, rfl, rfl⟩
  | cons x rest ih =>
    intro e
    cases x with
    | none => exact ih e
    | some s =>
      by_cases hs : s = ""
      · simpa [finishPass, hs] using ih e
      · cases hfind : items.find? (fun it => decide (getId it = s)) with
        | none => simpa [finishPass, hs, hfind] using ih e
        | some item =>
          cases hsub : alookup e.subscriptions s with
          | none => simpa [finishPass, hs, hfind, hsub] using ih e
          | some cbs => simpa [finishPass, hs, hfind, hsub] using ih _

theorem reportFinished_frame {T : Type} (getId : T → String) (e : Engine T)
    (q : List (Option String)) (items : List T) :
    (reportFinished getId e q items).1.subscriptions = e.subscriptions
    ∧ (reportFinished getId e q items).1.currentQueue = e.currentQueue
    ∧ (reportFinished getId e q items).1.timerArmed = e.timerArmed := by
  have h1 := finishPass_frame getId items q e
  have h2 := reportFailed_frame ((finishPass getId items e q).2.2.map some)
    (finishPass getId items e q).1
  exact ⟨h2.1.trans h1.1, h2.2.1.trans h1.2.1, h2.2.2.trans h1.2.2⟩

theorem addToQueue_fields {T : Type} (e : Engine T) (x : Option String) :
    (addToQueue e x).1.currentQueue = e.currentQueue ++ [x]
    ∧ (addToQueue e x).1.subscriptions = e.subscriptions := by
  have h := reportQueuing_frame { e with currentQueue := e.currentQueue ++ [x] } x
  by_cases ht : (reportQueuing { e with currentQueue := e.currentQueue ++ [x] } x).2.2 = true
  · simp only [addToQueue, ht, if_true]
    exact ⟨h.2.1, h.1⟩
  · simp only [addToQueue, ht, if_false]
    exact ⟨h.2.1, h.1⟩

theorem addToQueue_no_throw {T : Type} (e : Engine T) (s : String)
    (h : (alookup e.subscriptions s).isSome = true) :
    (addToQueue e (some s)).2.2 = false := by
  by_cases hs : s = ""
  · simp [addToQueue, reportQueuing, hs]
  · obtain ⟨cbs, hcbs⟩ := Option.isSome_iff_exists.mp h
    simp [addToQueue, reportQueuing, hs, hcbs]

/-! The reporting steps and external calls emit no bulk-loader invocation of
their own; only a flush does. -/

theorem loaderCalls_append {T : Type} (a b : List (Event T)) :
    loaderCalls (a ++ b) = loaderCalls a ++ loaderCalls b := by
  simp [loaderCalls, List.filterMap_append]

theorem loaderCalls_notifies {T : Type} (cbs : List Nat) (st : ItemState T) :
    loaderCalls (cbs.map (fun c => Event.notify c st)) = [] := by
  induction cbs with
  | nil => rfl
  | cons c rest ih => simp [loaderCalls, List.filterMap_cons]

theorem reportQueuing_no_call {T : Type} (e : Engine T) (x : Option String) :
    loaderCalls (reportQueuing e x).2.1 = [] := by
  cases x with
  | none => rfl
  | some s =>
    by_cases hs : s = ""
    · simp [reportQueuing, hs, loaderCalls]
    · cases hsub : alookup e.subscriptions s with
      | none => simp [reportQueuing, hs, hsub, loaderCalls]
      | some cbs => simp [reportQueuing, hs, hsub, loaderCalls_notifies]

theorem reportLoading_no_call {T : Type} (q : List (Option String)) :
    ∀ e : Engine T, loaderCalls (reportLoading e q).2 = [] := by
  induction q with
  | nil => intro e; rfl
  | cons x rest ih =>
    intro e
    cases x with
    | none => exact ih e
    | some s =>
      by_cases hs : s = ""
      · simpa [reportLoading, hs] using ih e
      · cases hsub : alookup e.subscriptions s with
        | none => simpa [reportLoading, hs, hsub] using ih e
        | some cbs =>
          simp [reportLoading, hs, hsub, loaderCalls_append, loaderCalls_notifies, ih _]

theorem reportFailed_no_call {T : Type} (q : List (Option String)) :
    ∀ e : Engine T, loaderCalls (reportFailed e q).2 = [] := by
  induction q with
  | nil => intro e; rfl
  | cons x rest ih =>
    intro e
    cases x with
    | none => exact ih e
    | some s =>
      by_cases hs : s = ""
      · simpa [reportFailed, hs] using ih e
      · cases hsub : alookup e.subscriptions s with
        | none => simpa [reportFailed, hs, hsub] using ih e
        | some cbs =>
          simp [reportFailed, hs, hsub, loaderCalls_append, loaderCalls_notifies, ih _]

theorem finishPass_no_call {T : Type} (getId : T → String) (items : List T)
    (q : List (Option String)) :
    ∀ e : Engine T, loaderCalls (finishPass getId items e q).2.1 = [] := by
  induction q with
  | nil => intro e; rfl
  | cons x rest ih =>
    intro e
    cases x with
    | none => exact ih e
    | some s =>
      by_cases hs : s = ""
      · simpa [finishPass, hs] using ih e
      · cases hfind : items.find? (fun it => decide (getId it = s)) with
        | none => simpa [finishPass, hs, hfind] using ih e
        | some item =>
          cases hsub : alookup e.subscriptions s with
          | none => simpa [finishPass, hs, hfind, hsub] using ih e
          | some cbs =>
            simp [finishPass, hs, hfind, hsub, loaderCalls_append, loaderCalls_notifies, ih _]

theorem reportFinished_no_call {T : Type} (getId : T → String) (e : Engine T)
    (q : List (Option String)) (items : List T) :
    loaderCalls (reportFinished getId e q items).2 = [] := by
  simp [reportFinished, loaderCalls_append, finishPass_no_call, reportFailed_no_call]

/-- A flush emits exactly one bulk-loader invocation, whose argument is the
isDefined-filtered snapshot of the queue, for both loader outcomes. -/
theorem flush_loaderCalls {T : Type} (getId : T → String) (e : Engine T)
    (res : Except Unit (List T)) :
    loaderCalls (flush getId e res).2 = [e.currentQueue.filterMap (fun x => x)] := by
  have hcons : ∀ (ids : List String) (evs : List (Event T)),
      loaderCalls (Event.loaderCall ids :: evs) = ids :: loaderCalls evs :=
    fun _ _ => rfl
  cases res with
  | ok items =>
    simp [flush, loaderCalls_append, reportLoading_no_call, reportFinished_no_call,
      hcons]
  | error err =>
    simp [flush, loaderCalls_append, reportLoading_no_call, reportFailed_no_call,
      hcons]

/-! Marking and preservation lemmas for the failure pass. -/

theorem reportFailed_keeps_failed {T : Type} (q : List (Option String)) :
    ∀ (e : Engine T) (id : String) (st : ItemState T),
      alookup e.itemStates id = some st → st.hasErrors = true → st.isLoading = false →
      ∃ st', alookup (reportFailed e q).1.itemStates id = some st'
        ∧ st'.hasErrors = true ∧ st'.isLoading = false := by
  induction q with
  | nil => intro e id st h hE hL; exact ⟨st, h, hE, hL⟩
  | cons x rest ih =>
    intro e id st h hE hL
    cases x with
    | none => exact ih e id st h hE hL
    | some s =>
      by_cases hs : s = ""
      · simp only [reportFailed, hs, if_true, eq_self_iff_true]
        exact ih e id st h hE hL
      · cases hsubs : alookup e.subscriptions s with
        | none =>
          simp only [reportFailed, hs, if_false, hsubs]
          exact ih e id st h hE hL
        | some cbs2 =>
          simp only [reportFailed, hs, if_false, hsubs]
          by_cases hsi : s = id
          · subst hsi
            exact ih _ s
              ({ (alookup e.itemStates s).getD SPREAD_DEFAULT with
                  hasErrors := true, isLoading := false })
              (alookup_upsert_self e.itemStates s _) rfl rfl
          · exact ih _ id st
              ((alookup_upsert_ne e.itemStates s id
                ({ (alookup e.itemStates s).getD SPREAD_DEFAULT with
                    hasErrors := true, isLoading := false }) (Ne.symm hsi)).trans h)
              hE hL

theorem reportFailed_marks {T : Type} (q : List (Option String)) :
    ∀ (e : Engine T) (id : String) (cbs : List Nat),
      id ≠ "" → alookup e.subscriptions id = some cbs → (some id) ∈ q →
      ∃ st', alookup (reportFailed e q).1.itemStates id = some st'
        ∧ st'.hasErrors = true ∧ st'.isLoading = false := by
  induction q with
  | nil => intro e id cbs hid hsub hmem; simp at hmem
  | cons x rest ih =>
    intro e id cbs hid hsub hmem
    rcases List.mem_cons.mp hmem with hx | hmem'
    · cases hx
      simp only [reportFailed, hid, if_false, hsub]
      exact reportFailed_keeps_failed rest _ id
        ({ (alookup e.itemStates id).getD SPREAD_DEFAULT with
            hasErrors := true, isLoading := false })
        (alookup_upsert_self e.itemStates id _) rfl rfl
    · cases x with
      | none => exact ih e id cbs hid hsub hmem'
      | some s =>
        by_cases hs : s = ""
        · simp only [reportFailed, hs, if_true, eq_self_iff_true]
          exact ih e id cbs hid hsub hmem'
        · cases hsubs : alookup e.subscriptions s with
          | none =>
            simp only [reportFailed, hs, if_false, hsubs]
            exact ih e id cbs hid hsub hmem'
          | some cbs2 =>
            simp only [reportFailed, hs, if_false, hsubs]
            exact ih _ id cbs hid hsub hmem'

theorem reportFailed_untouched {T : Type} (q : List (Option String)) :
    ∀ (e : Engine T) (id : String), (some id) ∉ q →
      alookup (reportFailed e q).1.itemStates id = alookup e.itemStates id := by
  induction q with
  | nil => intro e id _; rfl
  | cons x rest ih =>
    intro e id hnot
    have hx : x ≠ some id := fun hh => hnot (hh ▸ List.mem_cons_self x rest)
    have hrest : (some id) ∉ rest := fun hh => hnot (List.mem_cons_of_mem x hh)
    cases x with
    | none => exact ih e id hrest
    | some s =>
      have hsi : s ≠ id := fun hh => hx (by rw [hh])
      by_cases hs : s = ""
      · simp only [reportFailed, hs, if_true, eq_self_iff_true]
        exact ih e id hrest
      · cases hsubs : alookup e.subscriptions s with
        | none =>
          simp only [reportFailed, hs, if_false, hsubs]
          exact ih e id hrest
        | some cbs2 =>
          simp only [reportFailed, hs, if_false, hsubs]
          rw [ih _ id hrest]
          simpa using alookup_upsert_ne e.itemStates s id _ (Ne.symm hsi)

/-- Counterexample to claim C5: the empty-string identifier can be
subscribed (creating a registry entry) and enqueued, and the loader is then
invoked with [""] because isDefined keeps the empty string; but when the
loader rejects, the truthiness guard `if (id)` in reportFailed skips the
falsy empty string, so this snapshot identifier with a live registry entry
is never marked failed: its stored state keeps hasErrors false and its
observer gets no notification. -/
theorem flush_failure_skips_empty_id_cex :
    (let e1 := (subscribe ((initEngine false false) : Engine String) "" 0).1
     alookup e1.subscriptions "" = some [0]
     ∧ e1.currentQueue = [some ""]
     ∧ (flush (fun x => x) e1 (Except.error ())).2 = [Event.loaderCall [""]]
     ∧ alookup ((flush (fun x => x) e1 (Except.error ())).1.itemStates) "" =
         some { isLoading := false, isQueued := true, hasErrors := false, data := none }) := by
  decide

/-- Claim C5 as amended: when the bulk loader throws or rejects, every
truthy (nonempty) identifier of the flushed snapshot that still has a
registry entry is marked failed (hasErrors true, isLoading false); the
empty-string identifier, though passed to the loader, is skipped by the
reporters' truthiness guard. The flush makes exactly the one bulk-load call
that failed, leaves the queue empty and the timer disarmed, so no retry
happens. The error itself is consumed by the catch branch of the flush:
refresh and subscribe never see it (in the model, flush is a total function
separate from the refresh/subscribe call results). -/
theorem flush_failure_marks_batch {T : Type} (getId : T → String) (e : Engine T)
    (id : String) (cbs : List Nat)
    (hid : id ≠ "") (hsub : alookup e.subscriptions id = some cbs)
    (hq : (some id) ∈ e.currentQueue) :
    (∃ st, alookup ((flush getId e (Except.error ())).1.itemStates) id = some st
       ∧ st.hasErrors = true ∧ st.isLoading = false)
    ∧ loaderCalls (flush getId e (Except.error ())).2 =
        [e.currentQueue.filterMap (fun x => x)]
    ∧ (flush getId e (Except.error ())).1.currentQueue = []
    ∧ (flush getId e (Except.error ())).1.timerArmed = false := by
  refine ⟨?_, flush_loaderCalls getId e (Except.error ()), ?_, ?_⟩
  · have hsub1 : alookup ((reportLoading ({ e with currentQueue := [] } : Engine T)
        e.currentQueue).1.subscriptions) id = some cbs := by
      rw [(reportLoading_frame e.currentQueue _).1]
      exact hsub
    have h := reportFailed_marks e.currentQueue _ id cbs hid hsub1 hq
    simpa [flush] using h
  · have h1 := (reportLoading_frame e.currentQueue
      ({ e with currentQueue := [] } : Engine T)).2.1
    have h2 := (reportFailed_frame e.currentQueue
      (reportLoading ({ e with currentQueue := [] } : Engine T) e.currentQueue).1).2.1
    simp [flush, h1, h2]
  · simp [flush]

/-- Witness for C5 at a concrete engine with one subscriber. -/
theorem flush_failure_marks_batch_witness :
    (∃ st, alookup ((flush (fun x => x)
        (subscribe ((initEngine false false) : Engine String) "a" 0).1
        (Except.error ())).1.itemStates) "a" = some st
      ∧ st.hasErrors = true ∧ st.isLoading = false)
    ∧ loaderCalls (flush (fun x => x)
        (subscribe ((initEngine false false) : Engine String) "a" 0).1
        (Except.error ())).2 = [["a"]] := by
  have h := flush_failure_marks_batch (fun x => x)
    (subscribe ((initEngine false false) : Engine String) "a" 0).1 "a" [0]
    (by decide) (by decide) (by decide)
  exact ⟨h.1, h.2.1.trans (by decide)⟩

/-! External calls make no bulk-loader invocation and accumulate the queue. -/

theorem addToQueue_no_call {T : Type} (e : Engine T) (x : Option String) :
    loaderCalls (addToQueue e x).2.1 = [] := by
  by_cases ht : (reportQueuing ({ e with currentQueue := e.currentQueue ++ [x] } : Engine T) x).2.2 = true
  · simp [addToQueue, ht, reportQueuing_no_call]
  · simp [addToQueue, ht, reportQueuing_no_call]

theorem subscribe_no_call {T : Type} (e : Engine T) (id : String) (cb : Nat) :
    loaderCalls (subscribe e id cb).2.1 = [] := by
  cases h : alookup e.subscriptions id with
  | some cbs => simp [subscribe, h, loaderCalls]
  | none =>
    simp only [subscribe, h]
    split
    · exact addToQueue_no_call _ (some id)
    · exact addToQueue_no_call _ (some id)

theorem addAll_no_call {T : Type} (ks : List String) :
    ∀ e : Engine T, loaderCalls (addAll e ks).2 = [] := by
  induction ks with
  | nil => intro e; rfl
  | cons k rest ih =>
    intro e
    by_cases ht : (addToQueue e (some k)).2.2 = true
    · simp [addAll, ht, addToQueue_no_call]
    · simp [addAll, ht, loaderCalls_append, addToQueue_no_call, ih _]

theorem refreshAll_no_call {T : Type} (e : Engine T) :
    loaderCalls (refreshAll e).2 = [] := by
  by_cases hlwi : e.loadWithoutItems = true
  · simp [refreshAll, hlwi, loaderCalls_append, addAll_no_call, addToQueue_no_call]
  · simp [refreshAll, hlwi, addAll_no_call]

theorem runOp_no_call {T : Type} (e : Engine T) (op : Op) :
    loaderCalls (runOp e op).2 = [] := by
  cases op with
  | refresh id => exact addToQueue_no_call _ (some id)
  | subscribe id cb => exact subscribe_no_call e id cb
  | refreshAll => exact refreshAll_no_call e

theorem runOps_no_call {T : Type} (ops : List Op) :
    ∀ e : Engine T, loaderCalls (runOps e ops).2 = [] := by
  induction ops with
  | nil => intro e; rfl
  | cons op rest ih =>
    intro e
    simp [runOps, loaderCalls_append, runOp_no_call, ih _]

theorem subscribe_queue {T : Type} (e : Engine T) (id : String) (cb : Nat) :
    (subscribe e id cb).1.currentQueue =
      e.currentQueue ++
        (match alookup e.subscriptions id with
         | none => [some id]
         | some _ => []) := by
  cases h : alookup e.subscriptions id with
  | some cbs => simp [subscribe, h]
  | none =>
    simp only [subscribe, h]
    split
    · simpa using (addToQueue_fields _ (some id)).1
    · simpa using (addToQueue_fields _ (some id)).1

theorem addAll_queue {T : Type} (ks : List String) :
    ∀ e : Engine T, (∀ k ∈ ks, (alookup e.subscriptions k).isSome = true) →
      (addAll e ks).1.currentQueue = e.currentQueue ++ ks.map some := by
  induction ks with
  | nil => intro e _; simp [addAll]
  | cons k rest ih =>
    intro e hall
    have ht := addToQueue_no_throw e k (hall k (List.mem_cons_self k rest))
    have hsubs := (addToQueue_fields e (some k)).2
    have hq := (addToQueue_fields e (some k)).1
    have hall' : ∀ k' ∈ rest, (alookup (addToQueue e (some k)).1.subscriptions k').isSome = true := by
      intro k' hk'
      rw [hsubs]
      exact hall k' (List.mem_cons_of_mem k hk')
    simp [addAll, ht, ih _ hall', hq, List.append_assoc]

theorem refreshAll_queue {T : Type} (e : Engine T) :
    (refreshAll e).1.currentQueue =
      e.currentQueue ++ e.subscriptions.map (fun p => some p.1)
        ++ (if e.loadWithoutItems then [none] else []) := by
  have hall : ∀ k ∈ e.subscriptions.map Prod.fst,
      (alookup e.subscriptions k).isSome = true :=
    fun k hk => alookup_isSome_of_mem_keys e.subscriptions k hk
  have h1 := addAll_queue (e.subscriptions.map Prod.fst) e hall
  by_cases hlwi : e.loadWithoutItems = true
  · simp [refreshAll, hlwi, (addToQueue_fields _ none).1, h1, List.map_map,
      Function.comp, List.append_assoc]
  · simp [refreshAll, hlwi, h1, List.map_map, Function.comp]

theorem runOp_queue {T : Type} (e : Engine T) (op : Op) :
    (runOp e op).1.currentQueue = e.currentQueue ++ opEnqueues e op := by
  cases op with
  | refresh id => simpa [runOp, refresh, opEnqueues] using (addToQueue_fields e (some id)).1
  | subscribe id cb => simpa [runOp, opEnqueues] using subscribe_queue e id cb
  | refreshAll => simpa [runOp, opEnqueues, List.append_assoc] using refreshAll_queue e

theorem runOps_queue {T : Type} (ops : List Op) :
    ∀ e : Engine T, (runOps e ops).1.currentQueue = e.currentQueue ++ opsEnqueues e ops := by
  induction ops with
  | nil => intro e; simp [runOps, opsEnqueues]
  | cons op rest ih =>
    intro e
    simp only [runOps, opsEnqueues]
    rw [ih _, runOp_queue, List.append_assoc]

/-- Claim C3: a burst of subscribe / refresh / refreshAll calls starting from
an empty queue, with no flush in between (the debounce timer is re-armed on
each enqueue and fires once after the last one), produces exactly one
bulk-load call, and its argument is the enqueued identifiers in enqueue
order, duplicates preserved, with the no-identifier sentinel filtered out by
isDefined. -/
theorem debounced_single_bulk_load {T : Type} (getId : T → String) (e : Engine T)
    (ops : List Op) (res : Except Unit (List T)) (hq : e.currentQueue = []) :
    loaderCalls ((runOps e ops).2 ++ (flush getId (runOps e ops).1 res).2) =
      [(opsEnqueues e ops).filterMap (fun x => x)] := by
  rw [loaderCalls_append, runOps_no_call ops e, List.nil_append, flush_loaderCalls,
    runOps_queue ops e, hq, List.nil_append]

/-- Witness for C3: subscribing to "a", refreshing "a", subscribing to "b"
inside one debounce window yields one bulk-load call with ["a", "a", "b"]. -/
theorem debounced_single_bulk_load_witness :
    loaderCalls ((runOps ((initEngine false false) : Engine String)
        [Op.subscribe "a" 0, Op.refresh "a", Op.subscribe "b" 1]).2
      ++ (flush (fun x => x) (runOps ((initEngine false false) : Engine String)
        [Op.subscribe "a" 0, Op.refresh "a", Op.subscribe "b" 1]).1 (Except.ok [])).2) =
      [["a", "a", "b"]] := by
  have h := debounced_single_bulk_load (fun x => x)
    ((initEngine false false) : Engine String)
    [Op.subscribe "a" 0, Op.refresh "a", Op.subscribe "b" 1] (Except.ok []) (by decide)
  exact h.trans (by decide)

/-! Lemmas about the success pass of reconciliation. -/

theorem finishPass_missing_sound {T : Type} (getId : T → String) (items : List T)
    (q : List (Option String)) :
    ∀ (e : Engine T) (i : String), i ∈ (finishPass getId items e q).2.2 →
      items.find? (fun it => decide (getId it = i)) = none := by
  induction q with
  | nil => intro e i hmem; simp [finishPass] at hmem
  | cons x rest ih =>
    intro e i hmem
    cases x with
    | none => exact ih e i hmem
    | some s =>
      by_cases hs : s = ""
      · simp only [finishPass, hs, if_true, eq_self_iff_true] at hmem
        exact ih e i hmem
      · cases hfind : items.find? (fun it => decide (getId it = s)) with
        | none =>
          simp only [finishPass, hs, if_false, hfind] at hmem
          rcases List.mem_cons.mp hmem with hi | hi
          · subst hi; exact hfind
          · exact ih e i hi
        | some item =>
          cases hsub : alookup e.subscriptions s with
          | none =>
            simp only [finishPass, hs, if_false, hfind, hsub] at hmem
            exact ih e i hmem
          | some cbs =>
            simp only [finishPass, hs, if_false, hfind, hsub] at hmem
            exact ih _ i hmem

theorem finishPass_missing_complete {T : Type} (getId : T → String) (items : List T)
    (q : List (Option String)) :
    ∀ (e : Engine T) (i : String), (some i) ∈ q → i ≠ "" →
      items.find? (fun it => decide (getId it = i)) = none →
      i ∈ (finishPass getId items e q).2.2 := by
  induction q with
  | nil => intro e i hmem _ _; simp at hmem
  | cons x rest ih =>
    intro e i hmem hi hfind
    rcases List.mem_cons.mp hmem with hx | hmem'
    · cases hx
      simp only [finishPass, hi, if_false, hfind]
      exact List.mem_cons_self i _
    · cases x with
      | none => exact ih e i hmem' hi hfind
      | some s =>
        by_cases hs : s = ""
        · simp only [finishPass, hs, if_true, eq_self_iff_true]
          exact ih e i hmem' hi hfind
        · cases hfind2 : items.find? (fun it => decide (getId it = s)) with
          | none =>
            simp only [finishPass, hs, if_false, hfind2]
            exact List.mem_cons_of_mem s (ih e i hmem' hi hfind)
          | some item =>
            cases hsub : alookup e.subscriptions s with
            | none =>
              simp only [finishPass, hs, if_false, hfind2, hsub]
              exact ih e i hmem' hi hfind
            | some cbs =>
              simp only [finishPass, hs, if_false, hfind2, hsub]
              exact ih _ i hmem' hi hfind

theorem finishPass_keeps_success {T : Type} (getId : T → String) (items : List T)
    (q : List (Option String)) (id : String) (item : T)
    (hfind : items.find? (fun it => decide (getId it = id)) = some item) :
    ∀ (e : Engine T) (st : ItemState T),
      alookup e.itemStates id = some st → st.data = some item →
      st.hasErrors = false → st.isLoading = false →
      ∃ st', alookup (finishPass getId items e q).1.itemStates id = some st'
        ∧ st'.data = some item ∧ st'.hasErrors = false ∧ st'.isLoading = false := by
  induction q with
  | nil => intro e st h hD hE hL; exact ⟨st, h, hD, hE, hL⟩
  | cons x rest ih =>
    intro e st h hD hE hL
    cases x with
    | none => exact ih e st h hD hE hL
    | some s =>
      by_cases hs : s = ""
      · simp only [finishPass, hs, if_true, eq_self_iff_true]
        exact ih e st h hD hE hL
      · by_cases hsi : s = id
        · subst hsi
          simp only [finishPass, hs, if_false, hfind]
          cases hsub : alookup e.subscriptions s with
          | none => exact ih e st h hD hE hL
          | some cbs =>
            exact ih _
              ({ (alookup e.itemStates s).getD SPREAD_DEFAULT with
                  hasErrors := false, isLoading := false, data := some item })
              (alookup_upsert_self e.itemStates s _) rfl rfl rfl
        · cases hfind2 : items.find? (fun it => decide (getId it = s)) with
          | none =>
            simp only [finishPass, hs, if_false, hfind2]
            exact ih e st h hD hE hL
          | some item2 =>
            cases hsub : alookup e.subscriptions s with
            | none =>
              simp only [finishPass, hs, if_false, hfind2, hsub]
              exact ih e st h hD hE hL
            | some cbs =>
              simp only [finishPass, hs, if_false, hfind2, hsub]
              exact ih _ st
                ((alookup_upsert_ne e.itemStates s id
                  ({ (alookup e.itemStates s).getD SPREAD_DEFAULT with
                      hasErrors := false, isLoading := false, data := some item2 })
                  (Ne.symm hsi)).trans h)
                hD hE hL

theorem finishPass_marks_success {T : Type} (getId : T → String) (items : List T)
    (q : List (Option String)) (id : String) (cbs : List Nat) (item : T)
    (hid : id ≠ "")
    (hfind : items.find? (fun it => decide (getId it = id)) = some item) :
    ∀ e : Engine T, alookup e.subscriptions id = some cbs → (some id) ∈ q →
      ∃ st', alookup (finishPass getId items e q).1.itemStates id = some st'
        ∧ st'.data = some item ∧ st'.hasErrors = false ∧ st'.isLoading = false := by
  induction q with
  | nil => intro e _ hmem; simp at hmem
  | cons x rest ih =>
    intro e hsub hmem
    rcases List.mem_cons.mp hmem with hx | hmem'
    · cases hx
      simp only [finishPass, hid, if_false, hfind, hsub]
      exact finishPass_keeps_success getId items rest id item hfind _
        ({ (alookup e.itemStates id).getD SPREAD_DEFAULT with
            hasErrors := false, isLoading := false, data := some item })
        (alookup_upsert_self e.itemStates id _) rfl rfl rfl
    · cases x with
      | none => exact ih e hsub hmem'
      | some s =>
        by_cases hs : s = ""
        · simp only [finishPass, hs, if_true, eq_self_iff_true]
          exact ih e hsub hmem'
        · cases hfind2 : items.find? (fun it => decide (getId it = s)) with
          | none =>
            simp only [finishPass, hs, if_false, hfind2]
            exact ih e hsub hmem'
          | some item2 =>
            cases hsub2 : alookup e.subscriptions s with
            | none =>
              simp only [finishPass, hs, if_false, hfind2, hsub2]
              exact ih e hsub hmem'
            | some cbs2 =>
              simp only [finishPass, hs, if_false, hfind2, hsub2]
              exact ih _ hsub hmem'

/-! Flag lemmas for the notifications each pass emits. -/

theorem reportLoading_notify {T : Type} (q : List (Option String)) :
    ∀ (e : Engine T) (cb : Nat) (st : ItemState T),
      Event.notify cb st ∈ (reportLoading e q).2 → st.hasErrors = false := by
  induction q with
  | nil => intro e cb st hmem; simp [reportLoading] at hmem
  | cons x rest ih =>
    intro e cb st hmem
    cases x with
    | none => exact ih e cb st hmem
    | some s =>
      by_cases hs : s = ""
      · simp only [reportLoading, hs, if_true, eq_self_iff_true] at hmem
        exact ih e cb st hmem
      · cases hsub : alookup e.subscriptions s with
        | none =>
          simp only [reportLoading, hs, if_false, hsub] at hmem
          exact ih e cb st hmem
        | some cbs =>
          simp only [reportLoading, hs, if_false, hsub] at hmem
          rcases List.mem_append.mp hmem with h | h
          · rcases List.mem_map.mp h with ⟨c, _, heq⟩
            cases heq
            rfl
          · exact ih _ cb st h

theorem finishPass_notify {T : Type} (getId : T → String) (items : List T)
    (q : List (Option String)) :
    ∀ (e : Engine T) (cb : Nat) (st : ItemState T),
      Event.notify cb st ∈ (finishPass getId items e q).2.1 → st.hasErrors = false := by
  induction q with
  | nil => intro e cb st hmem; simp [finishPass] at hmem
  | cons x rest ih =>
    intro e cb st hmem
    cases x with
    | none => exact ih e cb st hmem
    | some s =>
      by_cases hs : s = ""
      · simp only [finishPass, hs, if_true, eq_self_iff_true] at hmem
        exact ih e cb st hmem
      · cases hfind : items.find? (fun it => decide (getId it = s)) with
        | none =>
          simp only [finishPass, hs, if_false, hfind] at hmem
          exact ih e cb st hmem
        | some item =>
          cases hsub : alookup e.subscriptions s with
          | none =>
            simp only [finishPass, hs, if_false, hfind, hsub] at hmem
            exact ih e cb st hmem
          | some cbs =>
            simp only [finishPass, hs, if_false, hfind, hsub] at hmem
            rcases List.mem_append.mp hmem with h | h
            · rcases List.mem_map.mp h with ⟨c, _, heq⟩
              cases heq
              rfl
            · exact ih _ cb st h

theorem reportFailed_notify {T : Type} (q : List (Option String)) :
    ∀ (e : Engine T) (cb : Nat) (st : ItemState T),
      Event.notify cb st ∈ (reportFailed e q).2 → st.hasErrors = true := by
  induction q with
  | nil => intro e cb st hmem; simp [reportFailed] at hmem
  | cons x rest ih =>
    intro e cb st hmem
    cases x with
    | none => exact ih e cb st hmem
    | some s =>
      by_cases hs : s = ""
      · simp only [reportFailed, hs, if_true, eq_self_iff_true] at hmem
        exact ih e cb st hmem
      · cases hsub : alookup e.subscriptions s with
        | none =>
          simp only [reportFailed, hs, if_false, hsub] at hmem
          exact ih e cb st hmem
        | some cbs =>
          simp only [reportFailed, hs, if_false, hsub] at hmem
          rcases List.mem_append.mp hmem with h | h
          · rcases List.mem_map.mp h with ⟨c, _, heq⟩
            cases heq
            rfl
          · exact ih _ cb st h

/-- Counterexample to claim C4: an identifier that was queued but whose last
observer unsubscribed before the flush (evicting its registry entry) is not
marked succeeded even though the loader returned a matching item; the
reconciliation skips it entirely, leaving the default state and emitting no
notification. -/
theorem flush_success_evicted_id_cex :
    (let e1 := (subscribe ((initEngine false false) : Engine String) "a" 0).1
     let e2 := (unsubscribe e1 "a" 0).1
     e2.currentQueue = [some "a"]
     ∧ List.find? (fun it => decide (it = "a")) ["a"] = some "a"
     ∧ (flush (fun x => x) e2 (Except.ok ["a"])).2 = [Event.loaderCall ["a"]]
     ∧ alookup ((flush (fun x => x) e2 (Except.ok ["a"])).1.itemStates) "a" = none
     ∧ getItem (flush (fun x => x) e2 (Except.ok ["a"])).1 "a" =
         { isLoading := false, isQueued := true, hasErrors := false, data := none }) := by
  decide

/-- Claim C4 as amended: on a successful flush, each truthy queued identifier
that still has a registry entry is marked succeeded with the data of the
first matching returned item, and each truthy queued identifier with a
registry entry but no matching returned item is marked failed with hasErrors
true; the whole event trace splits into a prefix whose notifications all
carry hasErrors false (loading and success markings) followed by the single
failure pass whose notifications all carry hasErrors true. -/
theorem flush_success_reconciliation {T : Type} (getId : T → String) (e : Engine T)
    (items : List T) (id : String) (cbs : List Nat) (item : T)
    (hid : id ≠ "") (hsub : alookup e.subscriptions id = some cbs)
    (hq : (some id) ∈ e.currentQueue) :
    (items.find? (fun it => decide (getId it = id)) = some item →
       ∃ st, alookup ((flush getId e (Except.ok items)).1.itemStates) id = some st
         ∧ st.data = some item ∧ st.hasErrors = false ∧ st.isLoading = false)
    ∧ (items.find? (fun it => decide (getId it = id)) = none →
       ∃ st, alookup ((flush getId e (Except.ok items)).1.itemStates) id = some st
         ∧ st.hasErrors = true ∧ st.isLoading = false)
    ∧ ∃ evsS evsF, (flush getId e (Except.ok items)).2 = evsS ++ evsF
        ∧ (∀ (cb : Nat) (st : ItemState T), Event.notify cb st ∈ evsS → st.hasErrors = false)
        ∧ (∀ (cb : Nat) (st : ItemState T), Event.notify cb st ∈ evsF → st.hasErrors = true) := by
  have hsub_l : alookup ((reportLoading ({ e with currentQueue := [] } : Engine T)
      e.currentQueue).1.subscriptions) id = some cbs := by
    rw [(reportLoading_frame e.currentQueue _).1]
    exact hsub
  refine ⟨?_, ?_, ?_⟩
  · intro hfind
    have h1 := finishPass_marks_success getId items e.currentQueue id cbs item hid hfind
      _ hsub_l hq
    obtain ⟨st', hlook, hD, hE, hL⟩ := h1
    have hnotmiss : (some id) ∉ ((finishPass getId items
        (reportLoading ({ e with currentQueue := [] } : Engine T) e.currentQueue).1
        e.currentQueue).2.2.map some) := by
      intro hmem
      rcases List.mem_map.mp hmem with ⟨i, hi, heq⟩
      cases heq
      have := finishPass_missing_sound getId items e.currentQueue _ id hi
      rw [hfind] at this
      exact Option.noConfusion this
    have h2 := reportFailed_untouched
      ((finishPass getId items
          (reportLoading ({ e with currentQueue := [] } : Engine T) e.currentQueue).1
          e.currentQueue).2.2.map some)
      (finishPass getId items
          (reportLoading ({ e with currentQueue := [] } : Engine T) e.currentQueue).1
          e.currentQueue).1
      id hnotmiss
    refine ⟨st', ?_, hD, hE, hL⟩
    show alookup ((flush getId e (Except.ok items)).1.itemStates) id = some st'
    simpa [flush, reportFinished] using h2.trans hlook
  · intro hfind
    have hmiss := finishPass_missing_complete getId items e.currentQueue
      (reportLoading ({ e with currentQueue := [] } : Engine T) e.currentQueue).1
      id hq hid hfind
    have hmem : (some id) ∈ ((finishPass getId items
        (reportLoading ({ e with currentQueue := [] } : Engine T) e.currentQueue).1
        e.currentQueue).2.2.map some) := List.mem_map.mpr ⟨id, hmiss, rfl⟩
    have hsub_fp : alookup ((finishPass getId items
        (reportLoading ({ e with currentQueue := [] } : Engine T) e.currentQueue).1
        e.currentQueue).1.subscriptions) id = some cbs := by
      rw [(finishPass_frame getId items e.currentQueue _).1]
      exact hsub_l
    have h2 := reportFailed_marks
      ((finishPass getId items
          (reportLoading ({ e with currentQueue := [] } : Engine T) e.currentQueue).1
          e.currentQueue).2.2.map some)
      (finishPass getId items
          (reportLoading ({ e with currentQueue := [] } : Engine T) e.currentQueue).1
          e.currentQueue).1
      id cbs hid hsub_fp hmem
    obtain ⟨st', hlook, hE, hL⟩ := h2
    refine ⟨st', ?_, hE, hL⟩
    show alookup ((flush getId e (Except.ok items)).1.itemStates) id = some st'
    simpa [flush, reportFinished] using hlook
  · refine ⟨(reportLoading ({ e with currentQueue := [] } : Engine T) e.currentQueue).2
        ++ [Event.loaderCall (e.currentQueue.filterMap (fun x => x))]
        ++ (finishPass getId items
            (reportLoading ({ e with currentQueue := [] } : Engine T) e.currentQueue).1
            e.currentQueue).2.1,
      (reportFailed (finishPass getId items
          (reportLoading ({ e with currentQueue := [] } : Engine T) e.currentQueue).1
          e.currentQueue).1
        ((finishPass getId items
          (reportLoading ({ e with currentQueue := [] } : Engine T) e.currentQueue).1
          e.currentQueue).2.2.map some)).2, ?_, ?_, ?_⟩
    · simp [flush, reportFinished, List.append_assoc]
    · intro cb st hmem
      rcases List.mem_append.mp hmem with h | h
      · rcases List.mem_append.mp h with h2 | h2
        · exact reportLoading_notify e.currentQueue _ cb st h2
        · simp at h2
      · exact finishPass_notify getId items e.currentQueue _ cb st h
    · intro cb st hmem
      exact reportFailed_notify _ _ cb st hmem

/-- Witness for C4 as amended: two subscribers, the loader returns an item
for "a" only; "a" is marked succeeded with it and "b" is marked failed. -/
theorem flush_success_reconciliation_witness :
    (∃ st, alookup ((flush (fun x => x)
        (subscribe (subscribe ((initEngine false false) : Engine String) "a" 0).1 "b" 1).1
        (Except.ok ["a"])).1.itemStates) "a" = some st
      ∧ st.data = some "a" ∧ st.hasErrors = false ∧ st.isLoading = false)
    ∧ (∃ st, alookup ((flush (fun x => x)
        (subscribe (subscribe ((initEngine false false) : Engine String) "a" 0).1 "b" 1).1
        (Except.ok ["a"])).1.itemStates) "b" = some st
      ∧ st.hasErrors = true ∧ st.isLoading = false) := by
  have ha := flush_success_reconciliation (fun x => x)
    (subscribe (subscribe ((initEngine false false) : Engine String) "a" 0).1 "b" 1).1
    ["a"] "a" [0] "a" (by decide) (by decide) (by decide)
  have hb := flush_success_reconciliation (fun x => x)
    (subscribe (subscribe ((initEngine false false) : Engine String) "a" 0).1 "b" 1).1
    ["a"] "b" [1] "a" (by decide) (by decide) (by decide)
  exact ⟨ha.1 (by decide), hb.2.1 (by decide)⟩

/-! Data-frame lemmas: which reporting steps can change the data field. -/

theorem dataOf_upsert_keep {T : Type} (l : List (String × ItemState T)) (s id : String)
    (ns : ItemState T) (hdata : ns.data = ((alookup l s).getD SPREAD_DEFAULT).data) :
    dataOf (upsert l s ns) id = dataOf l id := by
  unfold dataOf
  rw [alookup_upsert]
  by_cases hsi : s = id
  · subst hsi
    simp [hdata]
  · simp [hsi]

theorem dataOf_upsert_ne {T : Type} (l : List (String × ItemState T)) (s id : String)
    (ns : ItemState T) (h : s ≠ id) :
    dataOf (upsert l s ns) id = dataOf l id := by
  unfold dataOf
  rw [alookup_upsert]
  simp [h]

theorem dataOf_upsert_self {T : Type} (l : List (String × ItemState T)) (id : String)
    (ns : ItemState T) : dataOf (upsert l id ns) id = ns.data := by
  unfold dataOf
  rw [alookup_upsert]
  simp

theorem reportQueuing_dataOf {T : Type} (e : Engine T) (x : Option String) (id : String) :
    dataOf ((reportQueuing e x).1.itemStates) id = dataOf e.itemStates id := by
  cases x with
  | none => rfl
  | some s =>
    by_cases hs : s = ""
    · simp [reportQueuing, hs]
    · cases hsub : alookup e.subscriptions s with
      | none =>
        simp only [reportQueuing, hs, if_false, hsub]
        exact dataOf_upsert_keep e.itemStates s id _ rfl
      | some cbs =>
        simp only [reportQueuing, hs, if_false, hsub]
        exact dataOf_upsert_keep e.itemStates s id _ rfl

theorem reportLoading_dataOf {T : Type} (q : List (Option String)) :
    ∀ (e : Engine T) (id : String),
      dataOf ((reportLoading e q).1.itemStates) id = dataOf e.itemStates id := by
  induction q with
  | nil => intro e id; rfl
  | cons x rest ih =>
    intro e id
    cases x with
    | none => exact ih e id
    | some s =>
      by_cases hs : s = ""
      · simp only [reportLoading, hs, if_true, eq_self_iff_true]
        exact ih e id
      · cases hsub : alookup e.subscriptions s with
        | none =>
          simp only [reportLoading, hs, if_false, hsub]
          exact ih e id
        | some cbs =>
          simp only [reportLoading, hs, if_false, hsub]
          exact (ih _ id).trans (dataOf_upsert_keep e.itemStates s id _ rfl)

theorem reportFailed_dataOf {T : Type} (q : List (Option String)) :
    ∀ (e : Engine T) (id : String),
      dataOf ((reportFailed e q).1.itemStates) id = dataOf e.itemStates id := by
  induction q with
  | nil => intro e id; rfl
  | cons x rest ih =>
    intro e id
    cases x with
    | none => exact ih e id
    | some s =>
      by_cases hs : s = ""
      · simp only [reportFailed, hs, if_true, eq_self_iff_true]
        exact ih e id
      · cases hsub : alookup e.subscriptions s with
        | none =>
          simp only [reportFailed, hs, if_false, hsub]
          exact ih e id
        | some cbs =>
          simp only [reportFailed, hs, if_false, hsub]
          exact (ih _ id).trans (dataOf_upsert_keep e.itemStates s id _ rfl)

theorem finishPass_dataOf {T : Type} (getId : T → String) (items : List T)
    (q : List (Option String)) :
    ∀ (e : Engine T) (id : String),
      dataOf ((finishPass getId items e q).1.itemStates) id = dataOf e.itemStates id
      ∨ ∃ it, it ∈ items ∧ getId it = id
          ∧ dataOf ((finishPass getId items e q).1.itemStates) id = some it := by
  induction q with
  | nil => intro e id; exact Or.inl rfl
  | cons x rest ih =>
    intro e id
    cases x with
    | none => exact ih e id
    | some s =>
      by_cases hs : s = ""
      · simp only [finishPass, hs, if_true, eq_self_iff_true]
        exact ih e id
      · cases hfind : items.find? (fun it => decide (getId it = s)) with
        | none =>
          simp only [finishPass, hs, if_false, hfind]
          exact ih e id
        | some item =>
          cases hsub : alookup e.subscriptions s with
          | none =>
            simp only [finishPass, hs, if_false, hfind, hsub]
            exact ih e id
          | some cbs =>
            simp only [finishPass, hs, if_false, hfind, hsub]
            by_cases hsi : s = id
            · subst hsi
              have hitem : item ∈ items := List.mem_of_find?_eq_some hfind
              have hp := List.find?_some hfind
              simp only [decide_eq_true_eq] at hp
              have hself : dataOf (upsert e.itemStates s ({ (alookup e.itemStates s).getD SPREAD_DEFAULT with hasErrors := false, isLoading := false, data := some item })) s = some item :=
                dataOf_upsert_self e.itemStates s _
              rcases ih ({ e with itemStates := upsert e.itemStates s ({ (alookup e.itemStates s).getD SPREAD_DEFAULT with hasErrors := false, isLoading := false, data := some item }) } : Engine T) s with h | ⟨it, hit, hg, hd⟩
              · exact Or.inr ⟨item, hitem, hp, h.trans hself⟩
              · exact Or.inr ⟨it, hit, hg, hd⟩
            · rcases ih ({ e with itemStates := upsert e.itemStates s ({ (alookup e.itemStates s).getD SPREAD_DEFAULT with hasErrors := false, isLoading := false, data := some item }) } : Engine T) id with h | ⟨it, hit, hg, hd⟩
              · exact Or.inl (h.trans (dataOf_upsert_ne e.itemStates s id _ hsi))
              · exact Or.inr ⟨it, hit, hg, hd⟩

/-- Claim C9: each reporting mutation derives the new stored state from the
previous one, and the data field survives mark-queued, mark-loading and
mark-failed unchanged; only the success marking of reportFinished replaces
it, and then only with a returned item whose extracted identity is the
identifier being marked. -/
theorem reporting_data_frame {T : Type} (getId : T → String) (e : Engine T)
    (x : Option String) (q : List (Option String)) (items : List T) (id : String) :
    dataOf ((reportQueuing e x).1.itemStates) id = dataOf e.itemStates id
    ∧ dataOf ((reportLoading e q).1.itemStates) id = dataOf e.itemStates id
    ∧ dataOf ((reportFailed e q).1.itemStates) id = dataOf e.itemStates id
    ∧ (dataOf ((reportFinished getId e q items).1.itemStates) id = dataOf e.itemStates id
       ∨ ∃ it, it ∈ items ∧ getId it = id
           ∧ dataOf ((reportFinished getId e q items).1.itemStates) id = some it) := by
  refine ⟨reportQueuing_dataOf e x id, reportLoading_dataOf q e id,
    reportFailed_dataOf q e id, ?_⟩
  have hrf : dataOf ((reportFinished getId e q items).1.itemStates) id
      = dataOf ((finishPass getId items e q).1.itemStates) id :=
    reportFailed_dataOf ((finishPass getId items e q).2.2.map some)
      (finishPass getId items e q).1 id
  rcases finishPass_dataOf getId items q e id with h | ⟨it, hit, hg, hd⟩
  · exact Or.inl (hrf.trans h)
  · exact Or.inr ⟨it, hit, hg, hrf.trans hd⟩

end BatchLoader
